/-
  Verification of the jennah batch-job orchestrator core.

  Shallow embedding of the Go sources:
  - internal/database/jobs.go        (lease transaction, job mutations)
  - internal/database/models.go      (status constants)
  - cmd/worker/service/pollers.go    (poller tick, status mapping, predicates)
  - internal/router/classifier.go    (complexity classifier)
  - internal/config/job_config.go    (resource resolver)
  - worker service handlers          (SubmitJob/CancelJob/DeleteJob, provider job id)
  - gateway service handlers         (routing-key selection; two source copies)

  Timestamps are modelled as integers; Go `time.Time.Before` is `<`.
  Nullable (Spanner NULL) columns are modelled as `Option`.
-/
import Mathlib

namespace Jennah

/-! ## Status constants (internal/database/models.go) -/

def JobStatusPending : String := "PENDING"
def JobStatusScheduled : String := "SCHEDULED"
def JobStatusRunning : String := "RUNNING"
def JobStatusCompleted : String := "COMPLETED"
def JobStatusFailed : String := "FAILED"
def JobStatusCancelled : String := "CANCELLED"

/-- `isTerminalStatus` from cmd/worker/service/pollers.go. -/
def isTerminalStatus (status : String) : Bool :=
  status == JobStatusCompleted ||
  status == JobStatusFailed ||
  status == JobStatusCancelled

/-- `isCancellableStatus` from cmd/worker/service/pollers.go. -/
def isCancellableStatus (status : String) : Bool :=
  status == JobStatusPending ||
  status == JobStatusScheduled ||
  status == JobStatusRunning

/-! ## Job row (projection of database.Job onto the fields the verified
    operations read or write; `Option` encodes Spanner NULL). -/

structure JobRow where
  status : String
  ownerWorkerId : Option String
  preferredWorkerId : Option String
  leaseExpiresAt : Option Int
  lastHeartbeatAt : Option Int
  gcpBatchJobName : Option String
  updatedAt : Int
  deriving Repr, DecidableEq

/-! ## Lease transaction (internal/database/jobs.go, TryClaimOrRenewJobLease)

    The serializable transaction reads Status, OwnerWorkerId,
    PreferredWorkerId, LeaseExpiresAt, then either returns without buffering
    a write or buffers the update of OwnerWorkerId/LeaseExpiresAt/
    LastHeartbeatAt/UpdatedAt.  `now` is the `time.Now().UTC()` taken inside
    the transaction and `commitTs` the Spanner commit timestamp. -/

/-- `isOwner := ownerWorkerID.Valid && ownerWorkerID.StringVal == workerID`. -/
def leaseIsOwner (row : JobRow) (workerID : String) : Bool :=
  match row.ownerWorkerId with
  | some w => w == workerID
  | none => false

/-- `leaseExpired := !leaseExpiresAt.Valid || leaseExpiresAt.Time.Before(now)`. -/
def leaseExpired (row : JobRow) (now : Int) : Bool :=
  match row.leaseExpiresAt with
  | some t => t < now
  | none => true

/-- `isUnowned := !ownerWorkerID.Valid || ownerWorkerID.StringVal == ""`. -/
def leaseIsUnowned (row : JobRow) : Bool :=
  match row.ownerWorkerId with
  | some w => w == ""
  | none => true

/-- `preferredTakeover := preferredWorkerID.Valid && preferredWorkerID.StringVal == workerID && !isOwner`. -/
def leasePreferredTakeover (row : JobRow) (workerID : String) : Bool :=
  (match row.preferredWorkerId with
   | some w => w == workerID
   | none => false) && !(leaseIsOwner row workerID)

/-- `TryClaimOrRenewJobLease` (jobs.go:291-338): returns `(claimed, row')`. -/
def tryClaimOrRenewJobLease (row : JobRow) (workerID : String)
    (leaseUntil now commitTs : Int) : Bool × JobRow :=
  if row.status == JobStatusCompleted || row.status == JobStatusFailed ||
     row.status == JobStatusCancelled then
    (false, row)
  else
    let canClaim := leaseIsOwner row workerID || leaseExpired row now ||
                    leaseIsUnowned row || leasePreferredTakeover row workerID
    if canClaim then
      (true, { row with
                 ownerWorkerId := some workerID,
                 leaseExpiresAt := some leaseUntil,
                 lastHeartbeatAt := some now,
                 updatedAt := commitTs })
    else
      (false, row)

/-! ## Theorems about the lease transaction -/

/-- **C1.** `try-claim-or-renew` on an existing row: a terminal status yields
    `owned = false` with no write; when none of the four predicates hold it
    yields `owned = false` with no write; otherwise it writes
    `owner := workerID`, `lease-expires-at := leaseUntil`,
    `last-heartbeat-at := now` and yields `owned = true`. -/
theorem tryClaimOrRenew_cases (row : JobRow) (workerID : String)
    (leaseUntil now commitTs : Int) :
    (isTerminalStatus row.status = true →
      tryClaimOrRenewJobLease row workerID leaseUntil now commitTs = (false, row)) ∧
    (isTerminalStatus row.status = false →
      leaseIsOwner row workerID = false → leaseExpired row now = false →
      leaseIsUnowned row = false → leasePreferredTakeover row workerID = false →
      tryClaimOrRenewJobLease row workerID leaseUntil now commitTs = (false, row)) ∧
    (isTerminalStatus row.status = false →
      (leaseIsOwner row workerID = true ∨ leaseExpired row now = true ∨
       leaseIsUnowned row = true ∨ leasePreferredTakeover row workerID = true) →
      tryClaimOrRenewJobLease row workerID leaseUntil now commitTs =
        (true, { row with
                   ownerWorkerId := some workerID,
                   leaseExpiresAt := some leaseUntil,
                   lastHeartbeatAt := some now,
                   updatedAt := commitTs })) := by
  unfold tryClaimOrRenewJobLease isTerminalStatus
  refine ⟨?_, ?_, ?_⟩
  · intro hterm
    simp [hterm]
  · intro hterm h1 h2 h3 h4
    simp only [Bool.or_eq_false_iff] at hterm
    simp [hterm.1.1, hterm.1.2, hterm.2, h1, h2, h3, h4]
  · intro hterm hclaim
    simp only [Bool.or_eq_false_iff] at hterm
    rcases hclaim with h | h | h | h <;>
      simp [hterm.1.1, hterm.1.2, hterm.2, h]

/-- Witness for C1: concrete evaluations hitting all three branches. -/
theorem tryClaimOrRenew_cases_witness :
    (tryClaimOrRenewJobLease
        ⟨"COMPLETED", some "w1", some "w1", some 100, some 90, none, 0⟩
        "w2" 200 150 151 =
      (false, ⟨"COMPLETED", some "w1", some "w1", some 100, some 90, none, 0⟩)) ∧
    (tryClaimOrRenewJobLease
        ⟨"RUNNING", some "w1", some "w1", some 200, some 90, none, 0⟩
        "w2" 300 150 151 =
      (false, ⟨"RUNNING", some "w1", some "w1", some 200, some 90, none, 0⟩)) ∧
    (tryClaimOrRenewJobLease
        ⟨"RUNNING", some "w1", some "w1", some 200, some 90, none, 0⟩
        "w1" 300 150 151 =
      (true, ⟨"RUNNING", some "w1", some "w1", some 300, some 150, none, 151⟩)) := by
  refine ⟨?_, ?_, ?_⟩
  · exact (tryClaimOrRenew_cases _ _ _ _ _).1 (by decide)
  · exact (tryClaimOrRenew_cases _ _ _ _ _).2.1 (by decide) (by decide) (by decide)
      (by decide) (by decide)
  · exact (tryClaimOrRenew_cases _ _ _ _ _).2.2 (by decide) (Or.inl (by decide))

/-- **C9.** Renewal by the current owner is idempotent in ownership: if a call
    by worker `w` on a non-terminal job returns `owned = true`, an immediately
    following call by `w` with any expiry `e₂` not earlier than `now₂` also
    returns `owned = true`, and afterwards `lease-expires-at = e₂`. -/
theorem tryClaimOrRenew_renew_idempotent (row : JobRow) (w : String)
    (e₁ now₁ c₁ e₂ now₂ c₂ : Int)
    (hterm : isTerminalStatus row.status = false)
    (_he₂ : now₂ ≤ e₂)
    (h₁ : (tryClaimOrRenewJobLease row w e₁ now₁ c₁).1 = true) :
    (tryClaimOrRenewJobLease (tryClaimOrRenewJobLease row w e₁ now₁ c₁).2
        w e₂ now₂ c₂).1 = true ∧
    (tryClaimOrRenewJobLease (tryClaimOrRenewJobLease row w e₁ now₁ c₁).2
        w e₂ now₂ c₂).2.leaseExpiresAt = some e₂ := by
  unfold tryClaimOrRenewJobLease at *
  unfold isTerminalStatus at hterm
  simp only [Bool.or_eq_false_iff] at hterm
  simp only [hterm.1.1, hterm.1.2, hterm.2, Bool.or_self, Bool.false_or,
    if_false] at h₁ ⊢
  by_cases hclaim : (leaseIsOwner row w || leaseExpired row now₁ ||
      leaseIsUnowned row || leasePreferredTakeover row w) = true
  · simp only [hclaim, if_true]
    simp [leaseIsOwner, hterm.1.1, hterm.1.2, hterm.2]
  · simp only [Bool.not_eq_true] at hclaim
    simp [hclaim] at h₁

/-- Witness for C9: worker `w1` renews its own unexpired lease twice. -/
theorem tryClaimOrRenew_renew_idempotent_witness :
    ((tryClaimOrRenewJobLease (tryClaimOrRenewJobLease
        ⟨"RUNNING", some "w1", some "w1", some 200, some 90, none, 0⟩
        "w1" 300 150 151).2 "w1" 400 160 161).1 = true) ∧
    ((tryClaimOrRenewJobLease (tryClaimOrRenewJobLease
        ⟨"RUNNING", some "w1", some "w1", some 200, some 90, none, 0⟩
        "w1" 300 150 151).2 "w1" 400 160 161).2.leaseExpiresAt = some 400) :=
  tryClaimOrRenew_renew_idempotent
    ⟨"RUNNING", some "w1", some "w1", some 200, some 90, none, 0⟩
    "w1" 300 150 151 400 160 161 (by decide) (by decide) (by decide)

/-! ## Provider canonical statuses (internal/batch/provider.go, `JobStatus`) -/

inductive BatchJobStatus
  | pending | scheduled | running | completed | failed | cancelled | unknown
  deriving Repr, DecidableEq

/-- `mapBatchStatusToDBStatus` (cmd/worker/service/pollers.go:250-267); the
    Go `default:` branch — which the `unknown` sentinel falls into — returns
    `database.JobStatusPending`. -/
def mapBatchStatusToDBStatus : BatchJobStatus → String
  | .pending => JobStatusPending
  | .scheduled => JobStatusScheduled
  | .running => JobStatusRunning
  | .completed => JobStatusCompleted
  | .failed => JobStatusFailed
  | .cancelled => JobStatusCancelled
  | .unknown => JobStatusPending

/-! ## Poller tick (cmd/worker/service/pollers.go, `JobPoller.poll`)

    One `<-ticker.C` iteration of the poll loop, as a pure step function.
    The I/O outcomes of the iteration are inputs: the lease-renewal call
    result (`Except Unit Bool`, error or the `owned` flag) and the provider
    `GetJobStatus` call result.  The observable calls the iteration makes
    against the provider and the store are returned as an action trace. -/

structure PollerState where
  currentStatus : String
  failedAttempts : Nat
  deriving Repr, DecidableEq

/-- The calls a poll iteration performs, in order. `recordTransition` is the
    `RecordStateTransition` store append (its implementation is not among the
    given sources; modelled from the spec as an audit-record append). -/
inductive PollAction
  | providerPoll
  | writeStatus (status : String)
  | recordTransition (fromStatus : String) (toStatus : String) (note : String)
  deriving Repr, DecidableEq

/-- Result of one tick: the poller state afterwards, whether the goroutine
    returned (exited), and the trace of provider/store calls. -/
structure TickResult where
  state : PollerState
  exited : Bool
  actions : List PollAction
  deriving Repr, DecidableEq

/-- One `<-ticker.C` iteration of `JobPoller.poll` (pollers.go:79-139).
    `leaseResult` is the `TryClaimOrRenewJobLease` outcome and
    `providerStatus` the `batchProvider.GetJobStatus` outcome. -/
def pollTick (maxFailedAttempts : Nat) (st : PollerState)
    (leaseResult : Except Unit Bool)
    (providerStatus : Except Unit BatchJobStatus) : TickResult :=
  match leaseResult with
  | .error _ =>
      -- lease renewal failed: log and continue, without polling the provider
      { state := st, exited := false, actions := [] }
  | .ok owned =>
      if !owned then
        -- ownership lost: stop and return without touching the job status
        { state := st, exited := true, actions := [] }
      else
        match providerStatus with
        | .error _ =>
            let failed := st.failedAttempts + 1
            if maxFailedAttempts ≤ failed then
              { state := { st with failedAttempts := failed },
                exited := true, actions := [.providerPoll] }
            else
              { state := { st with failedAttempts := failed },
                exited := false, actions := [.providerPoll] }
        | .ok status =>
            let dbStatus := mapBatchStatusToDBStatus status
            if dbStatus != st.currentStatus then
              let oldStatus := st.currentStatus
              { state := { currentStatus := dbStatus, failedAttempts := 0 },
                exited := isTerminalStatus dbStatus,
                actions := [.providerPoll, .writeStatus dbStatus,
                  .recordTransition oldStatus dbStatus
                    "Status updated from GCP Batch API"] }
            else
              { state := { st with failedAttempts := 0 },
                exited := false, actions := [.providerPoll] }

/-! ## Theorems about the poller tick -/

/-- **C2 (divergence witness).** A poller caching `RUNNING` that receives the
    `UNKNOWN` canonical status does NOT leave everything unchanged: the code
    maps `UNKNOWN` to `PENDING` in the `default` branch of
    `mapBatchStatusToDBStatus`, persists the `PENDING` status, appends a
    `RUNNING → PENDING` transition record, and updates its cache — where the
    spec requires "no change" on `UNKNOWN`. -/
theorem pollTick_unknown_writes :
    pollTick 10 ⟨"RUNNING", 0⟩ (.ok true) (.ok .unknown) =
      { state := ⟨"PENDING", 0⟩,
        exited := false,
        actions := [.providerPoll, .writeStatus "PENDING",
          .recordTransition "RUNNING" "PENDING"
            "Status updated from GCP Batch API"] } := by
  decide

/-- **C8.** In a poll iteration, a job-status write or transition append
    occurs only when the lease renewal of that same iteration returned
    `owned = true`; on `owned = false` the poller exits immediately with no
    provider/store call; on a renewal error it continues without polling the
    provider. -/
theorem pollTick_lease_gates_writes (maxFailed : Nat) (st : PollerState)
    (leaseResult : Except Unit Bool)
    (providerStatus : Except Unit BatchJobStatus) :
    ((∃ s, PollAction.writeStatus s ∈
        (pollTick maxFailed st leaseResult providerStatus).actions) ∨
     (∃ f t n, PollAction.recordTransition f t n ∈
        (pollTick maxFailed st leaseResult providerStatus).actions) →
      leaseResult = .ok true) ∧
    (leaseResult = .ok false →
      (pollTick maxFailed st leaseResult providerStatus).exited = true ∧
      (pollTick maxFailed st leaseResult providerStatus).actions = []) ∧
    (∀ e, leaseResult = .error e →
      (pollTick maxFailed st leaseResult providerStatus).exited = false ∧
      (pollTick maxFailed st leaseResult providerStatus).actions = []) := by
  refine ⟨?_, ?_, ?_⟩
  · intro hwrite
    match leaseResult with
    | .error _ =>
        simp only [pollTick] at hwrite
        rcases hwrite with ⟨s, hs⟩ | ⟨f, t, n, hm⟩
        · simp at hs
        · simp at hm
    | .ok true => rfl
    | .ok false =>
        simp only [pollTick, Bool.not_false, if_true] at hwrite
        rcases hwrite with ⟨s, hs⟩ | ⟨f, t, n, hm⟩
        · simp at hs
        · simp at hm
  · rintro rfl
    simp [pollTick]
  · rintro e rfl
    simp [pollTick]

/-- Witness for C8: with `owned = false` the tick exits without actions. -/
theorem pollTick_lease_gates_writes_witness :
    (pollTick 10 ⟨"RUNNING", 0⟩ (.ok false) (.ok .running)).exited = true ∧
    (pollTick 10 ⟨"RUNNING", 0⟩ (.ok false) (.ok .running)).actions = [] :=
  (pollTick_lease_gates_writes 10 ⟨"RUNNING", 0⟩ (.ok false)
    (.ok .running)).2.1 rfl

/-! ## Complexity classifier (internal/router/classifier.go)

    Proto scalar fields default to the zero value; `GetCpuMillis` etc. on a
    nil `ResourceOverride` return 0, mirrored by the `Option` fallback. -/

structure ResourceOverridePb where
  cpuMillis : Int
  memoryMib : Int
  maxRunDurationSeconds : Int
  deriving Repr, DecidableEq

structure SubmitJobRequestPb where
  machineType : String
  resourceOverride : Option ResourceOverridePb
  deriving Repr, DecidableEq

inductive ComplexityLevel
  | unspecified | simple | medium | complex
  deriving Repr, DecidableEq

inductive AssignedService
  | unspecified | cloudTasks | cloudRunJob | cloudBatch
  deriving Repr, DecidableEq

structure RoutingDecision where
  complexity : ComplexityLevel
  assignedService : AssignedService
  reason : String
  deriving Repr, DecidableEq

def SimpleCPUMillisMax : Int := 500
def SimpleMemoryMiBMax : Int := 512
def SimpleDurationSecMax : Int := 600
def MediumCPUMillisMax : Int := 4000
def MediumMemoryMiBMax : Int := 8192
def MediumDurationSecMax : Int := 3600

/-- `exceedsThreshold` (classifier.go:185-187): non-zero and greater than max. -/
def exceedsThreshold (value mx : Int) : Bool :=
  value > 0 && value > mx

/-- `EvaluateJobComplexity` (classifier.go:110-181). -/
def EvaluateJobComplexity (req : SubmitJobRequestPb) : RoutingDecision :=
  let cpuMillis := match req.resourceOverride with
    | some ro => ro.cpuMillis
    | none => 0
  let memoryMiB := match req.resourceOverride with
    | some ro => ro.memoryMib
    | none => 0
  let durationSec := match req.resourceOverride with
    | some ro => ro.maxRunDurationSeconds
    | none => 0
  let machineType := req.machineType
  -- Rule 1: explicit machine type → always COMPLEX
  if machineType ≠ "" then
    ⟨.complex, .cloudBatch, "explicit machine_type requested: " ++ machineType⟩
  -- Rule 2: heavy resources → COMPLEX
  else if exceedsThreshold cpuMillis MediumCPUMillisMax then
    ⟨.complex, .cloudBatch, "cpu_millis exceeds medium threshold"⟩
  else if exceedsThreshold memoryMiB MediumMemoryMiBMax then
    ⟨.complex, .cloudBatch, "memory_mib exceeds medium threshold"⟩
  else if exceedsThreshold durationSec MediumDurationSecMax then
    ⟨.complex, .cloudBatch, "max_run_duration_seconds exceeds medium threshold"⟩
  -- Rule 3: moderate resources → MEDIUM
  else if exceedsThreshold cpuMillis SimpleCPUMillisMax then
    ⟨.medium, .cloudRunJob, "cpu_millis exceeds simple threshold"⟩
  else if exceedsThreshold memoryMiB SimpleMemoryMiBMax then
    ⟨.medium, .cloudRunJob, "memory_mib exceeds simple threshold"⟩
  else if exceedsThreshold durationSec SimpleDurationSecMax then
    ⟨.medium, .cloudRunJob, "max_run_duration_seconds exceeds simple threshold"⟩
  -- Rule 4: everything else → SIMPLE
  else
    ⟨.simple, .cloudTasks, "no machine type, resources within simple thresholds"⟩

/-- Effective cpu override of a request (0 when unspecified). -/
def effCpu (req : SubmitJobRequestPb) : Int :=
  match req.resourceOverride with
  | some ro => ro.cpuMillis
  | none => 0

/-- Effective memory override of a request (0 when unspecified). -/
def effMem (req : SubmitJobRequestPb) : Int :=
  match req.resourceOverride with
  | some ro => ro.memoryMib
  | none => 0

/-- Effective duration override of a request (0 when unspecified). -/
def effDur (req : SubmitJobRequestPb) : Int :=
  match req.resourceOverride with
  | some ro => ro.maxRunDurationSeconds
  | none => 0

/-- Spec-side "some override field is non-zero and strictly greater than its
    medium threshold (cpu-millis 4000, memory-mib 8192, duration-s 3600)",
    phrased as in the claim, for comparison with the source's thresholds. -/
def specOverMedium (req : SubmitJobRequestPb) : Prop :=
  (effCpu req ≠ 0 ∧ effCpu req > 4000) ∨
  (effMem req ≠ 0 ∧ effMem req > 8192) ∨
  (effDur req ≠ 0 ∧ effDur req > 3600)

/-- Spec-side "some override field is non-zero and strictly greater than its
    simple threshold (cpu-millis 500, memory-mib 512, duration-s 600)". -/
def specOverSimple (req : SubmitJobRequestPb) : Prop :=
  (effCpu req ≠ 0 ∧ effCpu req > 500) ∨
  (effMem req ≠ 0 ∧ effMem req > 512) ∨
  (effDur req ≠ 0 ∧ effDur req > 600)

instance (req : SubmitJobRequestPb) : Decidable (specOverMedium req) := by
  unfold specOverMedium; infer_instance

instance (req : SubmitJobRequestPb) : Decidable (specOverSimple req) := by
  unfold specOverSimple; infer_instance

/-- The source's threshold test agrees with the claim's "non-zero and strictly
    greater" phrasing for every positive threshold. -/
theorem exceedsThreshold_iff (value mx : Int) (hmx : 0 < mx) :
    exceedsThreshold value mx = true ↔ value ≠ 0 ∧ value > mx := by
  unfold exceedsThreshold
  simp only [Bool.and_eq_true, decide_eq_true_eq]
  omega

/-- Witness for `exceedsThreshold_iff` at a concrete boundary value. -/
theorem exceedsThreshold_iff_witness :
    (0 : Int) < 4000 ∧ (exceedsThreshold 4001 4000 = true ↔
      (4001 : Int) ≠ 0 ∧ (4001 : Int) > 4000) :=
  ⟨by decide, exceedsThreshold_iff 4001 4000 (by decide)⟩

/-- `EvaluateJobComplexity` written as its decision chain over the effective
    override fields (definitionally equal to the source embedding). -/
theorem evaluateJobComplexity_eq (req : SubmitJobRequestPb) :
    EvaluateJobComplexity req =
      if req.machineType ≠ "" then
        ⟨.complex, .cloudBatch,
          "explicit machine_type requested: " ++ req.machineType⟩
      else if exceedsThreshold (effCpu req) MediumCPUMillisMax then
        ⟨.complex, .cloudBatch, "cpu_millis exceeds medium threshold"⟩
      else if exceedsThreshold (effMem req) MediumMemoryMiBMax then
        ⟨.complex, .cloudBatch, "memory_mib exceeds medium threshold"⟩
      else if exceedsThreshold (effDur req) MediumDurationSecMax then
        ⟨.complex, .cloudBatch, "max_run_duration_seconds exceeds medium threshold"⟩
      else if exceedsThreshold (effCpu req) SimpleCPUMillisMax then
        ⟨.medium, .cloudRunJob, "cpu_millis exceeds simple threshold"⟩
      else if exceedsThreshold (effMem req) SimpleMemoryMiBMax then
        ⟨.medium, .cloudRunJob, "memory_mib exceeds simple threshold"⟩
      else if exceedsThreshold (effDur req) SimpleDurationSecMax then
        ⟨.medium, .cloudRunJob, "max_run_duration_seconds exceeds simple threshold"⟩
      else
        ⟨.simple, .cloudTasks, "no machine type, resources within simple thresholds"⟩ :=
  rfl

/-- A string with a non-empty left part of an append is non-empty. -/
theorem string_append_ne_empty (s t : String) (h : s ≠ "") : s ++ t ≠ "" := by
  intro hc
  apply h
  have hd : s.data ++ t.data = ([] : List Char) := congrArg String.data hc
  rcases List.append_eq_nil.mp hd with ⟨hs, _⟩
  cases s
  simp_all

/-- **C3.** The classifier decides in order with first match winning:
    non-empty machine-type → COMPLEX/HEAVY (reason cites the machine type);
    otherwise an override field non-zero and strictly above its medium
    threshold → COMPLEX/HEAVY; otherwise one non-zero and strictly above its
    simple threshold → MEDIUM/MEDIUM; otherwise SIMPLE/LIGHT (so values
    exactly at a threshold and zero fields never escalate); the reason is
    always non-empty. -/
theorem evaluateJobComplexity_spec (req : SubmitJobRequestPb) :
    (req.machineType ≠ "" →
      EvaluateJobComplexity req =
        ⟨.complex, .cloudBatch,
          "explicit machine_type requested: " ++ req.machineType⟩) ∧
    (req.machineType = "" → specOverMedium req →
      (EvaluateJobComplexity req).complexity = .complex ∧
      (EvaluateJobComplexity req).assignedService = .cloudBatch) ∧
    (req.machineType = "" → ¬ specOverMedium req → specOverSimple req →
      (EvaluateJobComplexity req).complexity = .medium ∧
      (EvaluateJobComplexity req).assignedService = .cloudRunJob) ∧
    (req.machineType = "" → ¬ specOverMedium req → ¬ specOverSimple req →
      EvaluateJobComplexity req =
        ⟨.simple, .cloudTasks,
          "no machine type, resources within simple thresholds"⟩) ∧
    (EvaluateJobComplexity req).reason ≠ "" := by
  have hM : specOverMedium req ↔
      (exceedsThreshold (effCpu req) MediumCPUMillisMax = true ∨
       exceedsThreshold (effMem req) MediumMemoryMiBMax = true ∨
       exceedsThreshold (effDur req) MediumDurationSecMax = true) := by
    unfold specOverMedium exceedsThreshold MediumCPUMillisMax MediumMemoryMiBMax
      MediumDurationSecMax
    simp only [Bool.and_eq_true, decide_eq_true_eq]
    omega
  have hS : specOverSimple req ↔
      (exceedsThreshold (effCpu req) SimpleCPUMillisMax = true ∨
       exceedsThreshold (effMem req) SimpleMemoryMiBMax = true ∨
       exceedsThreshold (effDur req) SimpleDurationSecMax = true) := by
    unfold specOverSimple exceedsThreshold SimpleCPUMillisMax SimpleMemoryMiBMax
      SimpleDurationSecMax
    simp only [Bool.and_eq_true, decide_eq_true_eq]
    omega
  refine ⟨?_, ?_, ?_, ?_, ?_⟩
  · intro hmt
    rw [evaluateJobComplexity_eq, if_pos hmt]
  · intro hmt hspec
    rw [evaluateJobComplexity_eq, if_neg (by simp [hmt])]
    by_cases h1 : exceedsThreshold (effCpu req) MediumCPUMillisMax = true
    · simp [h1]
    · by_cases h2 : exceedsThreshold (effMem req) MediumMemoryMiBMax = true
      · simp [h1, h2]
      · by_cases h3 : exceedsThreshold (effDur req) MediumDurationSecMax = true
        · simp [h1, h2, h3]
        · exact absurd (hM.mp hspec) (by simp [h1, h2, h3])
  · intro hmt hnm hsp
    rw [evaluateJobComplexity_eq, if_neg (by simp [hmt])]
    have hall : ¬ (exceedsThreshold (effCpu req) MediumCPUMillisMax = true ∨
        exceedsThreshold (effMem req) MediumMemoryMiBMax = true ∨
        exceedsThreshold (effDur req) MediumDurationSecMax = true) :=
      fun h => hnm (hM.mpr h)
    simp only [not_or] at hall
    obtain ⟨hm1, hm2, hm3⟩ := hall
    rw [if_neg hm1, if_neg hm2, if_neg hm3]
    by_cases h1 : exceedsThreshold (effCpu req) SimpleCPUMillisMax = true
    · simp [h1]
    · by_cases h2 : exceedsThreshold (effMem req) SimpleMemoryMiBMax = true
      · simp [h1, h2]
      · by_cases h3 : exceedsThreshold (effDur req) SimpleDurationSecMax = true
        · simp [h1, h2, h3]
        · exact absurd (hS.mp hsp) (by simp [h1, h2, h3])
  · intro hmt hnm hns
    rw [evaluateJobComplexity_eq, if_neg (by simp [hmt])]
    have hallM : ¬ (exceedsThreshold (effCpu req) MediumCPUMillisMax = true ∨
        exceedsThreshold (effMem req) MediumMemoryMiBMax = true ∨
        exceedsThreshold (effDur req) MediumDurationSecMax = true) :=
      fun h => hnm (hM.mpr h)
    have hallS : ¬ (exceedsThreshold (effCpu req) SimpleCPUMillisMax = true ∨
        exceedsThreshold (effMem req) SimpleMemoryMiBMax = true ∨
        exceedsThreshold (effDur req) SimpleDurationSecMax = true) :=
      fun h => hns (hS.mpr h)
    simp only [not_or] at hallM hallS
    obtain ⟨hm1, hm2, hm3⟩ := hallM
    obtain ⟨hs1, hs2, hs3⟩ := hallS
    rw [if_neg hm1, if_neg hm2, if_neg hm3, if_neg hs1, if_neg hs2, if_neg hs3]
  · rw [evaluateJobComplexity_eq]
    split
    · exact string_append_ne_empty _ _ (by decide)
    · repeat' split
      all_goals decide

/-- Witness for C3: a boundary request (`cpu = 501`, others at the simple
    maxima) classified through the theorem. -/
theorem evaluateJobComplexity_spec_witness :
    (EvaluateJobComplexity ⟨"", some ⟨501, 512, 600⟩⟩).complexity =
      ComplexityLevel.medium ∧
    (EvaluateJobComplexity ⟨"", some ⟨501, 512, 600⟩⟩).assignedService =
      AssignedService.cloudRunJob :=
  (evaluateJobComplexity_spec ⟨"", some ⟨501, 512, 600⟩⟩).2.2.1
    rfl (by decide) (by decide)

/-! ## Resource resolver (internal/config/job_config.go)

    Go maps are modelled as association lists (`List.lookup`). -/

structure ResourceProfileCfg where
  cpuMillis : Int
  memoryMiB : Int
  maxRunDurationSeconds : Int
  deriving Repr, DecidableEq

structure ResourceRequirements where
  cpuMillis : Int
  memoryMiB : Int
  maxRunDurationSeconds : Int
  deriving Repr, DecidableEq

structure JobConfigFile where
  defaultResources : ResourceProfileCfg
  resourceProfiles : List (String × ResourceProfileCfg)
  machineTypeResources : List (String × ResourceProfileCfg)
  deriving Repr, DecidableEq

/-- `GetResourceRequirements` (job_config.go:42-60). -/
def GetResourceRequirements (c : JobConfigFile) (profileName : String) :
    ResourceRequirements :=
  let profile :=
    if profileName ≠ "" then
      match c.resourceProfiles.lookup profileName with
      | some p => p
      | none => c.defaultResources
    else
      c.defaultResources
  ⟨profile.cpuMillis, profile.memoryMiB, profile.maxRunDurationSeconds⟩

/-- `GetMachineTypeResources` (job_config.go:64-78); `none` models the Go nil. -/
def GetMachineTypeResources (c : JobConfigFile) (machineType : String) :
    Option ResourceRequirements :=
  if machineType = "" then
    none
  else
    match c.machineTypeResources.lookup machineType with
    | some profile =>
        some ⟨profile.cpuMillis, profile.memoryMiB, profile.maxRunDurationSeconds⟩
    | none => none

structure ResourceOverrideCfg where
  cpuMillis : Int
  memoryMiB : Int
  maxRunDurationSeconds : Int
  deriving Repr, DecidableEq

/-- The base triple `ResolveResources` starts from: the machine-type profile
    when the machine type is non-empty and configured, else the named preset
    or default (job_config.go:96-108). -/
def resolveBase (c : JobConfigFile) (machineType profileName : String) :
    ResourceRequirements :=
  let fromMachineType :=
    if machineType ≠ "" then GetMachineTypeResources c machineType else none
  match fromMachineType with
  | some r => r
  | none => GetResourceRequirements c profileName

/-- `ResolveResources` (job_config.go:95-125): non-zero override fields
    replace the base fields. -/
def ResolveResources (c : JobConfigFile) (machineType profileName : String)
    (override : Option ResourceOverrideCfg) : ResourceRequirements :=
  let base := resolveBase c machineType profileName
  match override with
  | none => base
  | some o =>
      { cpuMillis := if o.cpuMillis ≠ 0 then o.cpuMillis else base.cpuMillis,
        memoryMiB := if o.memoryMiB ≠ 0 then o.memoryMiB else base.memoryMiB,
        maxRunDurationSeconds :=
          if o.maxRunDurationSeconds ≠ 0 then o.maxRunDurationSeconds
          else base.maxRunDurationSeconds }

/-- **C6 (counterexample).** A configuration whose machine-type entry carries
    zero fields makes `ResolveResources` return an all-zero triple although
    the configuration's default resources are non-zero in every field. -/
theorem resolveResources_zero_despite_default :
    ResolveResources
      ⟨⟨1000, 1024, 600⟩, [], [("mt", ⟨0, 0, 0⟩)]⟩
      "mt" "" none = ⟨0, 0, 0⟩ ∧
    (⟨⟨1000, 1024, 600⟩, [], [("mt", ⟨0, 0, 0⟩)]⟩ :
      JobConfigFile).defaultResources.cpuMillis ≠ 0 := by
  constructor
  · rfl
  · decide

/-- **C6 (amended).** For every configuration, machine type, profile name and
    override, the resolved triple is non-zero in every field for which the
    base profile selected by the resolver — the machine-type entry when
    present, otherwise the named preset or the default — is non-zero. -/
theorem resolveResources_nonzero_from_base (c : JobConfigFile)
    (machineType profileName : String) (override : Option ResourceOverrideCfg) :
    ((resolveBase c machineType profileName).cpuMillis ≠ 0 →
      (ResolveResources c machineType profileName override).cpuMillis ≠ 0) ∧
    ((resolveBase c machineType profileName).memoryMiB ≠ 0 →
      (ResolveResources c machineType profileName override).memoryMiB ≠ 0) ∧
    ((resolveBase c machineType profileName).maxRunDurationSeconds ≠ 0 →
      (ResolveResources c machineType profileName override).maxRunDurationSeconds ≠ 0) := by
  unfold ResolveResources
  match override with
  | none => exact ⟨id, id, id⟩
  | some o =>
      refine ⟨?_, ?_, ?_⟩ <;> intro hbase <;> simp only
      · by_cases h : o.cpuMillis ≠ 0
        · simp [h]
        · simpa [h] using hbase
      · by_cases h : o.memoryMiB ≠ 0
        · simp [h]
        · simpa [h] using hbase
      · by_cases h : o.maxRunDurationSeconds ≠ 0
        · simp [h]
        · simpa [h] using hbase

/-- Witness for the amended C6: a default-profile resolution with a partial
    override keeps every field non-zero. -/
theorem resolveResources_nonzero_from_base_witness :
    (resolveBase ⟨⟨1000, 1024, 600⟩, [], []⟩ "" "").cpuMillis ≠ 0 ∧
    (ResolveResources ⟨⟨1000, 1024, 600⟩, [], []⟩ "" ""
      (some ⟨2000, 0, 0⟩)).cpuMillis ≠ 0 :=
  ⟨by decide,
   (resolveResources_nonzero_from_base ⟨⟨1000, 1024, 600⟩, [], []⟩ "" ""
      (some ⟨2000, 0, 0⟩)).1 (by decide)⟩

/-! ## State store (internal/database/jobs.go mutations; the Jobs table is an
    association list keyed by `(TenantId, JobId)`). -/

structure TransitionRow where
  tenantId : String
  jobId : String
  transitionId : String
  fromStatus : Option String
  toStatus : String
  note : Option String
  deriving Repr, DecidableEq

structure Store where
  jobs : List ((String × String) × JobRow)
  transitions : List TransitionRow
  deriving Repr, DecidableEq

/-- `GetJob` (jobs.go:49-64) as a row read; `none` models the not-found error. -/
def getJobRow (st : Store) (tenantID jobID : String) : Option JobRow :=
  st.jobs.lookup (tenantID, jobID)

/-- Point update of one job row. -/
def setJobRow (st : Store) (tenantID jobID : String) (f : JobRow → JobRow) :
    Store :=
  { st with
      jobs := st.jobs.map fun kv =>
        if kv.1 = (tenantID, jobID) then (kv.1, f kv.2) else kv }

/-- `UpdateJobStatus` (jobs.go:138-149): sets Status and bumps UpdatedAt. -/
def updateJobStatus (st : Store) (tenantID jobID status : String)
    (commitTs : Int) : Store :=
  setJobRow st tenantID jobID fun row =>
    { row with status := status, updatedAt := commitTs }

/-- Modelled from the spec: `RecordStateTransition` (its implementation is not
    among the given sources; §4.2 specifies it as the append of one
    JobStateTransition audit record). -/
def recordStateTransition (st : Store) (tenantID jobID transitionID : String)
    (fromStatus : Option String) (toStatus : String) (note : Option String) :
    Store :=
  { st with
      transitions := st.transitions ++
        [⟨tenantID, jobID, transitionID, fromStatus, toStatus, note⟩] }

/-- `DeleteJob` (jobs.go:241-249); the handler notes the delete "cascades to
    JobStateTransitions". -/
def deleteJobRow (st : Store) (tenantID jobID : String) : Store :=
  { jobs := st.jobs.filter fun kv => kv.1 != (tenantID, jobID),
    transitions := st.transitions.filter fun tr =>
      !(tr.tenantId == tenantID && tr.jobId == jobID) }

theorem getJobRow_setJobRow (st : Store) (t j : String) (f : JobRow → JobRow) :
    getJobRow (setJobRow st t j f) t j = (getJobRow st t j).map f := by
  unfold getJobRow setJobRow
  simp only
  induction st.jobs with
  | nil => rfl
  | cons hd tl ih =>
      obtain ⟨k, v⟩ := hd
      simp only [List.map_cons]
      by_cases h : k = (t, j)
      · rw [if_pos h]
        subst h
        simp [List.lookup]
      · rw [if_neg h]
        have hbeq : ((t, j) == k) = false := by
          simpa [beq_iff_eq] using fun he => h he.symm
        simp [List.lookup, hbeq, ih]

/-! ## Worker RPC handlers (worker service, unnamed sources)

    RPC errors are the connect codes the handlers return.  The GCP Batch
    cancel/delete calls are external I/O; their success is an input flag.
    Store operations are the in-memory mutations above (fault-free store). -/

inductive RpcError
  | invalidArgument | unauthenticated | notFound | internal
  deriving Repr, DecidableEq

/-- `WorkerService.CancelJob`: validates the tenant header and job id, reads
    the job (404 when absent), rejects non-cancellable statuses with
    invalid-argument, cancels in GCP Batch when a cloud resource path exists,
    then sets CANCELLED and records the transition.  Returns the response
    `(jobId, status)` or the error, with the store afterwards. -/
def workerCancelJob (st : Store) (tenantID jobID : String)
    (gcpCancelOk : Bool) (transitionID : String) (commitTs : Int) :
    Except RpcError (String × String) × Store :=
  if tenantID = "" then (.error .invalidArgument, st)
  else if jobID = "" then (.error .invalidArgument, st)
  else
    match getJobRow st tenantID jobID with
    | none => (.error .notFound, st)
    | some job =>
        if !(isCancellableStatus job.status) then (.error .invalidArgument, st)
        else if job.gcpBatchJobName.isSome && !gcpCancelOk then
          (.error .internal, st)
        else
          let st₁ := updateJobStatus st tenantID jobID JobStatusCancelled commitTs
          let st₂ := recordStateTransition st₁ tenantID jobID transitionID
            (some job.status) JobStatusCancelled
            (some "Job cancelled by user request")
          (.ok (jobID, JobStatusCancelled), st₂)

/-- `WorkerService.DeleteJob`: validates, reads the job (404 when absent),
    deletes in GCP Batch when a cloud resource path exists, then removes the
    row.  Returns `(jobId, message)` or the error. -/
def workerDeleteJob (st : Store) (tenantID jobID : String)
    (gcpDeleteOk : Bool) : Except RpcError (String × String) × Store :=
  if tenantID = "" then (.error .invalidArgument, st)
  else if jobID = "" then (.error .invalidArgument, st)
  else
    match getJobRow st tenantID jobID with
    | none => (.error .notFound, st)
    | some job =>
        if job.gcpBatchJobName.isSome && !gcpDeleteOk then (.error .internal, st)
        else (.ok (jobID, "Job successfully deleted"), deleteJobRow st tenantID jobID)

/-- **C4.** `CancelJob` on an existing job: a non-cancellable (in particular
    terminal) status yields an invalid-argument error with the store — hence
    the job row — untouched; a status in {PENDING, SCHEDULED, RUNNING} (with
    the provider cancel succeeding) yields success, the row set to CANCELLED,
    and exactly one transition record `old → CANCELLED` appended.  Success
    therefore occurs only for cancellable statuses. -/
theorem workerCancelJob_spec (st : Store) (tenant job : String) (row : JobRow)
    (gcpCancelOk : Bool) (tid : String) (commitTs : Int)
    (htenant : tenant ≠ "") (hjob : job ≠ "")
    (hfound : getJobRow st tenant job = some row) :
    (isCancellableStatus row.status = false →
      workerCancelJob st tenant job gcpCancelOk tid commitTs =
        (.error .invalidArgument, st)) ∧
    (isCancellableStatus row.status = true → gcpCancelOk = true →
      (workerCancelJob st tenant job gcpCancelOk tid commitTs).1 =
        .ok (job, JobStatusCancelled) ∧
      getJobRow (workerCancelJob st tenant job gcpCancelOk tid commitTs).2
          tenant job =
        some { row with status := JobStatusCancelled, updatedAt := commitTs } ∧
      (workerCancelJob st tenant job gcpCancelOk tid commitTs).2.transitions =
        st.transitions ++
          [⟨tenant, job, tid, some row.status, JobStatusCancelled,
            some "Job cancelled by user request"⟩]) ∧
    (∀ r st', workerCancelJob st tenant job gcpCancelOk tid commitTs =
        (.ok r, st') → isCancellableStatus row.status = true) := by
  unfold workerCancelJob
  rw [if_neg htenant, if_neg hjob]
  simp only [hfound]
  refine ⟨?_, ?_, ?_⟩
  · intro hnc
    simp [hnc]
  · intro hc hok
    subst hok
    have hres : (if !(isCancellableStatus row.status) then
          ((.error .invalidArgument, st) :
            Except RpcError (String × String) × Store)
        else if row.gcpBatchJobName.isSome && !true then (.error .internal, st)
        else
          (.ok (job, JobStatusCancelled),
            recordStateTransition
              (updateJobStatus st tenant job JobStatusCancelled commitTs)
              tenant job tid (some row.status) JobStatusCancelled
              (some "Job cancelled by user request"))) =
        (.ok (job, JobStatusCancelled),
          recordStateTransition
            (updateJobStatus st tenant job JobStatusCancelled commitTs)
            tenant job tid (some row.status) JobStatusCancelled
            (some "Job cancelled by user request")) := by
      simp [hc]
    rw [hres]
    refine ⟨rfl, ?_, rfl⟩
    have hskip : getJobRow (recordStateTransition
        (updateJobStatus st tenant job JobStatusCancelled commitTs)
        tenant job tid (some row.status) JobStatusCancelled
        (some "Job cancelled by user request")) tenant job =
        getJobRow (updateJobStatus st tenant job JobStatusCancelled commitTs)
          tenant job := rfl
    rw [hskip]
    unfold updateJobStatus
    rw [getJobRow_setJobRow, hfound]
    rfl
  · intro r st' h
    by_cases hc : isCancellableStatus row.status = true
    · exact hc
    · rw [Bool.not_eq_true] at hc
      simp [hc] at h

/-- Witness for C4: cancelling a RUNNING job without a cloud resource path
    succeeds and appends the transition. -/
theorem workerCancelJob_spec_witness :
    (workerCancelJob
        ⟨[(("t1", "j1"), ⟨"RUNNING", some "w1", some "w1", some 10, some 5, none, 0⟩)], []⟩
        "t1" "j1" true "tr1" 99).1 = .ok ("j1", JobStatusCancelled) ∧
    getJobRow (workerCancelJob
        ⟨[(("t1", "j1"), ⟨"RUNNING", some "w1", some "w1", some 10, some 5, none, 0⟩)], []⟩
        "t1" "j1" true "tr1" 99).2 "t1" "j1" =
      some ⟨"CANCELLED", some "w1", some "w1", some 10, some 5, none, 99⟩ := by
  have h := workerCancelJob_spec
    ⟨[(("t1", "j1"), ⟨"RUNNING", some "w1", some "w1", some 10, some 5, none, 0⟩)], []⟩
    "t1" "j1" ⟨"RUNNING", some "w1", some "w1", some 10, some 5, none, 0⟩
    true "tr1" 99 (by decide) (by decide) (by decide)
  obtain ⟨hok, hrow, -⟩ := h.2.1 (by decide) rfl
  exact ⟨hok, hrow⟩

/-- **C5 (counterexample).** `DeleteJob` for a job id absent from the store
    returns a not-found error, not success: on the empty store the handler
    answers `CodeNotFound`. -/
theorem workerDeleteJob_absent_errors :
    workerDeleteJob ⟨[], []⟩ "t1" "j1" true =
      (.error .notFound, ⟨[], []⟩) :=
  rfl

/-- **C5 (amended).** For every store, valid tenant id and job id, when the
    job id is absent from the store the worker's `DeleteJob` handler returns
    a not-found error and leaves the store unchanged. -/
theorem workerDeleteJob_absent_spec (st : Store) (tenant job : String)
    (gcpDeleteOk : Bool) (htenant : tenant ≠ "") (hjob : job ≠ "")
    (habsent : getJobRow st tenant job = none) :
    workerDeleteJob st tenant job gcpDeleteOk = (.error .notFound, st) := by
  unfold workerDeleteJob
  rw [if_neg htenant, if_neg hjob, habsent]

/-- Witness for the amended C5 at a concrete non-empty store. -/
theorem workerDeleteJob_absent_spec_witness :
    workerDeleteJob
        ⟨[(("t1", "j1"), ⟨"RUNNING", none, none, none, none, none, 0⟩)], []⟩
        "t1" "j2" true =
      (.error .notFound,
        ⟨[(("t1", "j1"), ⟨"RUNNING", none, none, none, none, none, 0⟩)], []⟩) :=
  workerDeleteJob_absent_spec _ "t1" "j2" true (by decide) (by decide) (by decide)

/-! ## Gateway routing (two source copies of the gateway service)

    The consistent-hash router is abstracted as the deterministic function
    `router : routing key → worker IP` behind `hashing.Router.GetWorkerIP`
    (the `internal/hashing` package itself is not among the given sources;
    per the spec it is a deterministic map returning `""` when no worker
    exists).  `clients` is the set of worker IPs with a client. -/

/-- A request the gateway forwards: the selected worker and what is sent. -/
structure ForwardedCall where
  workerIP : String
  tenantHeader : String
  jobId : String
  deriving Repr, DecidableEq

/-- `GatewayService.getWorkerClient` (copy with the helper): GetWorkerIP on
    the routing key; empty IP or missing client is an internal error. -/
def getWorkerClient (router : String → String) (clients : List String)
    (routingKey : String) : Except RpcError String :=
  let workerIP := router routingKey
  if workerIP = "" then .error .internal
  else if clients.contains workerIP then .ok workerIP
  else .error .internal

/-- `GatewayService.CancelJob` in the copy that routes per-job RPCs by the
    job id: checks the job id, resolves the tenant, picks the worker with the
    job id as routing key, forwards with the `X-Tenant-Id` header. -/
def gatewayP5CancelJob (router : String → String) (clients : List String)
    (tenantResolution : Except RpcError String) (jobId : String) :
    Except RpcError ForwardedCall :=
  if jobId = "" then .error .invalidArgument
  else
    match tenantResolution with
    | .error e => .error e
    | .ok tenantId =>
        match getWorkerClient router clients jobId with
        | .error e => .error e
        | .ok workerIP => .ok ⟨workerIP, tenantId, jobId⟩

/-- `GatewayService.DeleteJob` in the job-id-routing copy. -/
def gatewayP5DeleteJob (router : String → String) (clients : List String)
    (tenantResolution : Except RpcError String) (jobId : String) :
    Except RpcError ForwardedCall :=
  if jobId = "" then .error .invalidArgument
  else
    match tenantResolution with
    | .error e => .error e
    | .ok tenantId =>
        match getWorkerClient router clients jobId with
        | .error e => .error e
        | .ok workerIP => .ok ⟨workerIP, tenantId, jobId⟩

/-- `GatewayService.GetJob` in the job-id-routing copy. -/
def gatewayP5GetJob (router : String → String) (clients : List String)
    (tenantResolution : Except RpcError String) (jobId : String) :
    Except RpcError ForwardedCall :=
  if jobId = "" then .error .invalidArgument
  else
    match tenantResolution with
    | .error e => .error e
    | .ok tenantId =>
        match getWorkerClient router clients jobId with
        | .error e => .error e
        | .ok workerIP => .ok ⟨workerIP, tenantId, jobId⟩

/-- `GatewayService.CancelJob` in cmd/gateway/service/handlers.go: resolves
    the tenant first, checks the job id, then picks the worker with the
    TENANT id as routing key (`s.router.GetWorkerIP(tenantId)`). -/
def gatewayHandlersCancelJob (router : String → String) (clients : List String)
    (tenantResolution : Except RpcError String) (jobId : String) :
    Except RpcError ForwardedCall :=
  match tenantResolution with
  | .error e => .error e
  | .ok tenantId =>
      if jobId = "" then .error .invalidArgument
      else
        let workerIP := router tenantId
        if workerIP = "" then .error .internal
        else if clients.contains workerIP then .ok ⟨workerIP, tenantId, jobId⟩
        else .error .internal

/-- `GatewayService.DeleteJob` in cmd/gateway/service/handlers.go, likewise
    keyed by the tenant id. -/
def gatewayHandlersDeleteJob (router : String → String) (clients : List String)
    (tenantResolution : Except RpcError String) (jobId : String) :
    Except RpcError ForwardedCall :=
  match tenantResolution with
  | .error e => .error e
  | .ok tenantId =>
      if jobId = "" then .error .invalidArgument
      else
        let workerIP := router tenantId
        if workerIP = "" then .error .internal
        else if clients.contains workerIP then .ok ⟨workerIP, tenantId, jobId⟩
        else .error .internal

/-- **C7 (counterexample).** In the cmd/gateway/service/handlers.go copy,
    CancelJob applies the router to the TENANT id: with the identity router,
    tenant `t1` and job `j1`, the selected worker is `t1`, not the router's
    image `j1` of the job id. -/
theorem gatewayHandlersCancelJob_routes_by_tenant :
    gatewayHandlersCancelJob (fun k => k) ["t1", "j1"] (.ok "t1") "j1" =
      .ok ⟨"t1", "t1", "j1"⟩ ∧
    ((fun k => k) "j1" : String) ≠ "t1" := by
  exact ⟨rfl, by decide⟩

/-- **C7 (amended).** In the gateway copy that forwards per-job RPCs by job
    id, every successfully routed CancelJob, DeleteJob and GetJob selects
    exactly the worker the consistent-hash router assigns to the request's
    job id. -/
theorem gatewayP5_routes_by_jobId (router : String → String)
    (clients : List String) (tenantResolution : Except RpcError String)
    (jobId : String) :
    (∀ fc, gatewayP5CancelJob router clients tenantResolution jobId = .ok fc →
      fc.workerIP = router jobId ∧ fc.jobId = jobId) ∧
    (∀ fc, gatewayP5DeleteJob router clients tenantResolution jobId = .ok fc →
      fc.workerIP = router jobId ∧ fc.jobId = jobId) ∧
    (∀ fc, gatewayP5GetJob router clients tenantResolution jobId = .ok fc →
      fc.workerIP = router jobId ∧ fc.jobId = jobId) := by
  have hgen : ∀ fc : ForwardedCall,
      (if jobId = "" then (.error .invalidArgument : Except RpcError ForwardedCall)
       else
         match tenantResolution with
         | .error e => .error e
         | .ok tenantId =>
             match getWorkerClient router clients jobId with
             | .error e => .error e
             | .ok workerIP => .ok ⟨workerIP, tenantId, jobId⟩) = .ok fc →
      fc.workerIP = router jobId ∧ fc.jobId = jobId := by
    intro fc h
    by_cases hj : jobId = ""
    · rw [if_pos hj] at h
      exact absurd h (by simp)
    · rw [if_neg hj] at h
      match htr : tenantResolution with
      | .error e => exact absurd h (by simp)
      | .ok tenantId =>
          replace h : (match getWorkerClient router clients jobId with
              | .error e => (.error e : Except RpcError ForwardedCall)
              | .ok workerIP => .ok ⟨workerIP, tenantId, jobId⟩) = .ok fc := h
          unfold getWorkerClient at h
          by_cases hip : router jobId = ""
          · rw [if_pos hip] at h
            exact absurd h (by simp)
          · rw [if_neg hip] at h
            by_cases hcl : clients.contains (router jobId) = true
            · rw [if_pos hcl] at h
              simp only [Except.ok.injEq] at h
              rw [← h]
              exact ⟨rfl, rfl⟩
            · rw [if_neg hcl] at h
              exact absurd h (by simp)
  exact ⟨hgen, hgen, hgen⟩

/-- Witness for the amended C7: with the identity router the three handlers
    contact the worker named by the job id. -/
theorem gatewayP5_routes_by_jobId_witness :
    gatewayP5CancelJob (fun k => k) ["t1", "j1"] (.ok "t1") "j1" =
      .ok ⟨"j1", "t1", "j1"⟩ ∧
    (⟨"j1", "t1", "j1"⟩ : ForwardedCall).workerIP = (fun k => k) "j1" := by
  constructor
  · rfl
  · exact ((gatewayP5_routes_by_jobId (fun k => k) ["t1", "j1"]
      (.ok "t1") "j1").1 ⟨"j1", "t1", "j1"⟩ rfl).1

/-! ## Provider job id generation (worker service `generateProviderJobID`)

    Go strings are modelled as `List Char`.  The function's inputs are the
    optional human-friendly `name` and the internal `jobID`; character
    comparisons in the source are rune (code point) comparisons, written here
    on `Char.toNat`.  `strings.ToLower` is modelled by its ASCII action
    (`goToLower`); a non-ASCII case mapping can only produce characters the
    sanitizer collapses to hyphens or keeps as `[a-z0-9]`, exactly like the
    Go original.  The Go expression `strings.ReplaceAll(jobID, "-", "")[:8]`
    panics when fewer than 8 bytes remain, modelled by `none`. -/

/-- `r >= 'a' && r <= 'z' || r >= '0' && r <= '9'` on code points. -/
def isLowerAlnum (c : Char) : Bool :=
  (97 ≤ c.toNat && c.toNat ≤ 122) || (48 ≤ c.toNat && c.toNat ≤ 57)

/-- `'a' <= c && c <= 'z'` on code points. -/
def isLowerLetter (c : Char) : Bool :=
  97 ≤ c.toNat && c.toNat ≤ 122

/-- ASCII action of `strings.ToLower`: `'A'..'Z'` shifted by 32. -/
def goToLower (c : Char) : Char :=
  if 65 ≤ c.toNat && c.toNat ≤ 90 then Char.ofNat (c.toNat + 32) else c

/-- One step of the sanitizing loop (`strings.Builder` + `prevHyphen`):
    keep `[a-z0-9]`, otherwise write a single `-` when the builder is
    non-empty and the previous write was not already a hyphen. -/
def sanitizeStep (st : List Char × Bool) (c : Char) : List Char × Bool :=
  if isLowerAlnum c then (st.1 ++ [c], false)
  else if !st.2 && !st.1.isEmpty then (st.1 ++ ['-'], true)
  else st

/-- `strings.TrimRight(s, "-")`. -/
def trimRightHyphens (l : List Char) : List Char :=
  ((l.reverse.dropWhile fun c => c == '-')).reverse

/-- `generateProviderJobID(name, jobID)`: strips hyphens from the job id and
    takes the first 8 characters (`none` when the Go slice would panic);
    an empty name yields `jennah-` + lowercased short id; otherwise the name
    is lowercased, sanitized, made to start with a letter, truncated so the
    total with the `-shortID` suffix fits 64, and suffixed. -/
def generateProviderJobID (name jobID : List Char) : Option (List Char) :=
  let stripped := jobID.filter fun c => c != '-'
  if stripped.length < 8 then
    none
  else
    let shortID := stripped.take 8
    if name = [] then
      some ("jennah-".toList ++ shortID.map goToLower)
    else
      let lowered := name.map goToLower
      let built := (lowered.foldl sanitizeStep ([], false)).1
      let sanitized := trimRightHyphens built
      let sanitized₂ :=
        match sanitized with
        | [] => ['j']
        | c :: cs =>
            if c.toNat < 97 || 122 < c.toNat then 'j' :: c :: cs else c :: cs
      let suffix := '-' :: shortID
      let maxNameLen := 64 - suffix.length
      let sanitized₃ :=
        if maxNameLen < sanitized₂.length then
          trimRightHyphens (sanitized₂.take maxNameLen)
        else sanitized₂
      some (sanitized₃ ++ suffix)

theorem goToLower_of_lowerAlnum {c : Char} (h : isLowerAlnum c = true) :
    goToLower c = c := by
  unfold isLowerAlnum at h
  unfold goToLower
  simp only [Bool.or_eq_true, Bool.and_eq_true, decide_eq_true_eq] at h
  rw [if_neg]
  simp only [Bool.and_eq_true, decide_eq_true_eq, not_and]
  omega

theorem sanitize_chars (l : List Char) :
    ∀ st : List Char × Bool, (∀ c ∈ st.1, isLowerAlnum c = true ∨ c = '-') →
      ∀ c ∈ (l.foldl sanitizeStep st).1, isLowerAlnum c = true ∨ c = '-' := by
  induction l with
  | nil => intro st hst; exact hst
  | cons a l ih =>
      intro st hst
      rw [List.foldl_cons]
      apply ih
      unfold sanitizeStep
      by_cases ha : isLowerAlnum a = true
      · rw [if_pos ha]
        intro c hc
        rcases List.mem_append.mp hc with h | h
        · exact hst c h
        · rw [List.mem_singleton.mp h]; exact .inl ha
      · rw [if_neg ha]
        by_cases hcond : (!st.2 && !st.1.isEmpty) = true
        · rw [if_pos hcond]
          intro c hc
          rcases List.mem_append.mp hc with h | h
          · exact hst c h
          · rw [List.mem_singleton.mp h]; exact .inr rfl
        · rw [if_neg hcond]; exact hst

theorem trimRightHyphens_subset {c : Char} {l : List Char}
    (hc : c ∈ trimRightHyphens l) : c ∈ l := by
  unfold trimRightHyphens at hc
  rw [List.mem_reverse] at hc
  have := (List.dropWhile_sublist (l := l.reverse) (fun c => c == '-')).mem hc
  rwa [List.mem_reverse] at this

theorem trimRightHyphens_length_le (l : List Char) :
    (trimRightHyphens l).length ≤ l.length := by
  unfold trimRightHyphens
  rw [List.length_reverse]
  calc (l.reverse.dropWhile fun c => c == '-').length
      ≤ l.reverse.length :=
        (List.dropWhile_sublist (l := l.reverse) (fun c => c == '-')).length_le
    _ = l.length := List.length_reverse l

theorem dropWhile_append_singleton (p : Char → Bool) (l : List Char) (c : Char)
    (hc : p c = false) : ∃ t, (l ++ [c]).dropWhile p = t ++ [c] := by
  induction l with
  | nil =>
      refine ⟨[], ?_⟩
      rw [List.nil_append, List.dropWhile_cons, hc]
      simp
  | cons a l ih =>
      rw [List.cons_append, List.dropWhile_cons]
      by_cases hp : p a = true
      · rw [if_pos hp]; exact ih
      · rw [if_neg hp]
        exact ⟨a :: l, rfl⟩

theorem trimRightHyphens_cons (c : Char) (cs : List Char)
    (hc : (c == '-') = false) :
    ∃ cs', trimRightHyphens (c :: cs) = c :: cs' := by
  unfold trimRightHyphens
  rw [List.reverse_cons]
  obtain ⟨t, ht⟩ := dropWhile_append_singleton (fun c => c == '-') cs.reverse c hc
  rw [ht, List.reverse_append]
  exact ⟨t.reverse, rfl⟩

theorem lowerLetter_ne_hyphen {c : Char} (h : isLowerLetter c = true) :
    (c == '-') = false := by
  by_contra hbe
  rw [Bool.not_eq_false, beq_iff_eq] at hbe
  rw [hbe] at h
  exact absurd h (by decide)

theorem take_cons_of_pos (c : Char) (cs : List Char) {n : Nat} (hn : 0 < n) :
    (c :: cs).take n = c :: cs.take (n - 1) := by
  match n, hn with
  | n + 1, _ => rw [List.take_succ_cons]; rfl

/-- **C10 (counterexample).** `generateProviderJobID` is not total: for the
    internal job id `abc` — fewer than 8 characters once hyphens are
    stripped — the Go slice `strings.ReplaceAll(jobID, "-", "")[:8]` is out
    of bounds and the function panics (modelled as `none`), for an empty
    name and for a non-empty one alike. -/
theorem generateProviderJobID_short_id_panics :
    generateProviderJobID [] ['a', 'b', 'c'] = none ∧
    generateProviderJobID ['x'] ['a', 'b', 'c'] = none := by
  constructor <;> rfl

/-- **C10 (amended).** For every name and every internal job id made of
    lowercase letters, digits and hyphens with at least 8 characters left
    after stripping hyphens, `generateProviderJobID` returns (no panic) and
    the result has length at most 64, begins with a lowercase letter, and
    contains only lowercase letters, digits, and hyphens. -/
theorem generateProviderJobID_spec (name jobID : List Char)
    (hid : ∀ c ∈ jobID, isLowerAlnum c = true ∨ c = '-')
    (hlen : 8 ≤ (jobID.filter fun c => c != '-').length) :
    ∃ out, generateProviderJobID name jobID = some out ∧
      out.length ≤ 64 ∧
      (∃ c cs, out = c :: cs ∧ isLowerLetter c = true) ∧
      (∀ c ∈ out, isLowerAlnum c = true ∨ c = '-') := by
  have hstrchars : ∀ c ∈ (jobID.filter fun c => c != '-'),
      isLowerAlnum c = true := by
    intro c hc
    have hmem := List.mem_filter.mp hc
    rcases hid c hmem.1 with h | h
    · exact h
    · exfalso
      have := hmem.2
      rw [h] at this
      exact absurd this (by decide)
  have hshortchars : ∀ c ∈ (jobID.filter fun c => c != '-').take 8,
      isLowerAlnum c = true :=
    fun c hc => hstrchars c (List.take_subset _ _ hc)
  have hshortlen : ((jobID.filter fun c => c != '-').take 8).length = 8 := by
    rw [List.length_take]
    omega
  simp only [generateProviderJobID]
  rw [if_neg (by omega)]
  by_cases hname : name = []
  · rw [if_pos hname]
    refine ⟨_, rfl, ?_, ?_, ?_⟩
    · rw [List.length_append, List.length_map, hshortlen]
      have h7 : ("jennah-".toList).length = 7 := by decide
      omega
    · refine ⟨'j', "ennah-".toList ++
        ((jobID.filter fun c => c != '-').take 8).map goToLower, ?_, by decide⟩
      have hj : ("jennah-".toList) = 'j' :: "ennah-".toList := by decide
      rw [hj, List.cons_append]
    · intro c hc
      rcases List.mem_append.mp hc with h | h
      · have hlit : ("jennah-".toList) = ['j','e','n','n','a','h','-'] := by decide
        rw [hlit] at h
        have hall : ∀ c ∈ (['j','e','n','n','a','h','-'] : List Char),
            isLowerAlnum c = true ∨ c = '-' := by decide
        exact hall c h
      · obtain ⟨d, hd, rfl⟩ := List.mem_map.mp h
        rw [goToLower_of_lowerAlnum (hshortchars d hd)]
        exact .inl (hshortchars d hd)
  · rw [if_neg hname]
    have hbchars : ∀ c ∈ ((name.map goToLower).foldl sanitizeStep
        ([], false)).1, isLowerAlnum c = true ∨ c = '-' :=
      sanitize_chars _ ([], false) (by intro c hc; exact absurd hc (by simp))
    have hschars : ∀ c ∈ trimRightHyphens ((name.map goToLower).foldl
        sanitizeStep ([], false)).1, isLowerAlnum c = true ∨ c = '-' :=
      fun c hc => hbchars c (trimRightHyphens_subset hc)
    -- the guarded `sanitized₂` always starts with a lowercase letter and
    -- keeps the character-set invariant
    obtain ⟨s₂, hs₂eq, hs₂head, hs₂chars⟩ :
        ∃ s₂, (match trimRightHyphens ((name.map goToLower).foldl
            sanitizeStep ([], false)).1 with
          | [] => ['j']
          | c :: cs =>
              if c.toNat < 97 || 122 < c.toNat then 'j' :: c :: cs
              else c :: cs) = s₂ ∧
          (∃ c cs, s₂ = c :: cs ∧ isLowerLetter c = true) ∧
          (∀ c ∈ s₂, isLowerAlnum c = true ∨ c = '-') := by
      match hsan : trimRightHyphens ((name.map goToLower).foldl
          sanitizeStep ([], false)).1 with
      | [] =>
          exact ⟨['j'], rfl, ⟨'j', [], rfl, by decide⟩, by decide⟩
      | c :: cs =>
          have hcs : ∀ x ∈ c :: cs, isLowerAlnum x = true ∨ x = '-' := by
            rw [← hsan]; exact hschars
          by_cases hcl : (c.toNat < 97 || 122 < c.toNat) = true
          · refine ⟨'j' :: c :: cs, ?_, ⟨'j', c :: cs, rfl, by decide⟩, ?_⟩
            · show (if c.toNat < 97 || 122 < c.toNat then 'j' :: c :: cs
                else c :: cs) = 'j' :: c :: cs
              rw [if_pos hcl]
            · intro x hx
              rcases List.mem_cons.mp hx with h | h
              · rw [h]; exact .inl (by decide)
              · exact hcs x h
          · refine ⟨c :: cs, ?_, ⟨c, cs, rfl, ?_⟩, hcs⟩
            · show (if c.toNat < 97 || 122 < c.toNat then 'j' :: c :: cs
                else c :: cs) = c :: cs
              rw [if_neg hcl]
            simp only [Bool.or_eq_true, not_or, Bool.not_eq_true,
              decide_eq_false_iff_not, not_lt] at hcl
            unfold isLowerLetter
            simp only [Bool.and_eq_true, decide_eq_true_eq]
            omega
    rw [hs₂eq]
    obtain ⟨ch, ct, hs₂cons, hs₂letter⟩ := hs₂head
    have hsuffixlen : ('-' :: (jobID.filter fun c => c != '-').take 8).length = 9 := by
      rw [List.length_cons, hshortlen]
    by_cases hbig : 64 - ('-' :: (jobID.filter fun c => c != '-').take 8).length
        < s₂.length
    · rw [if_pos hbig]
      have hmax : 64 - ('-' :: (jobID.filter fun c => c != '-').take 8).length = 55 := by
        omega
      rw [hmax]
      -- truncated-and-trimmed name part
      have htake : s₂.take 55 = ch :: ct.take 54 := by
        rw [hs₂cons, take_cons_of_pos ch ct (by omega)]
      obtain ⟨cs', hcs'⟩ :=
        trimRightHyphens_cons ch (ct.take 54) (lowerLetter_ne_hyphen hs₂letter)
      refine ⟨_, rfl, ?_, ?_, ?_⟩
      · rw [List.length_append, hsuffixlen]
        have h1 := trimRightHyphens_length_le (s₂.take 55)
        have h2 : (s₂.take 55).length ≤ 55 := by
          rw [List.length_take]; omega
        omega
      · refine ⟨ch, cs' ++ '-' :: (jobID.filter fun c => c != '-').take 8, ?_, hs₂letter⟩
        rw [htake, hcs', List.cons_append]
      · intro x hx
        rcases List.mem_append.mp hx with h | h
        · have hx₂ : x ∈ s₂ :=
            List.take_subset 55 s₂ (trimRightHyphens_subset h)
          exact hs₂chars x hx₂
        · rcases List.mem_cons.mp h with h | h
          · exact .inr h
          · exact .inl (hshortchars x h)
    · rw [if_neg hbig]
      refine ⟨_, rfl, ?_, ?_, ?_⟩
      · rw [List.length_append, hsuffixlen]
        omega
      · refine ⟨ch, ct ++ '-' :: (jobID.filter fun c => c != '-').take 8, ?_, hs₂letter⟩
        rw [hs₂cons, List.cons_append]
      · intro x hx
        rcases List.mem_append.mp hx with h | h
        · exact hs₂chars x h
        · rcases List.mem_cons.mp h with h | h
          · exact .inr h
          · exact .inl (hshortchars x h)

/-- Witness for the amended C10: a name with spaces and a UUID-like id. -/
theorem generateProviderJobID_spec_witness :
    (∀ c ∈ ("abcdef12-3456".toList), isLowerAlnum c = true ∨ c = '-') ∧
    8 ≤ (("abcdef12-3456".toList).filter fun c => c != '-').length ∧
    ∃ out, generateProviderJobID ("My Job".toList) ("abcdef12-3456".toList) =
        some out ∧
      out.length ≤ 64 ∧
      (∃ c cs, out = c :: cs ∧ isLowerLetter c = true) ∧
      (∀ c ∈ out, isLowerAlnum c = true ∨ c = '-') :=
  ⟨by decide, by decide,
   generateProviderJobID_spec ("My Job".toList) ("abcdef12-3456".toList)
     (by decide) (by decide)⟩

end Jennah
